import Mathlib

/-!
Verification of `src/advanced_traffic_analyzer.py`.

The Python source is shallowly embedded: each Python function or method that
the properties refer to becomes an executable Lean definition operating on
`List Char`-backed strings, `Int` for Python integers, and `Rat` for the
division-valued statistics.  Python string helpers (`strip`, `split`,
`upper`, `isdigit`, `int(...)`, `startswith`) are modelled character by
character for the ASCII inputs the log format uses.
-/

namespace TrafficAnalyzer

/-! ### Python string primitives -/

/-- `line.strip()`: remove leading and trailing whitespace. -/
def pyStrip (s : String) : String :=
  String.mk (((s.data.dropWhile Char.isWhitespace).reverse.dropWhile Char.isWhitespace).reverse)

/-- Accumulator-based worker for `str.split()` (split on whitespace runs,
dropping empty fields); `acc` holds the current token reversed. -/
def splitWsAux : List Char → List Char → List String
  | [], [] => []
  | [], acc => [String.mk acc.reverse]
  | c :: cs, acc =>
    if c.isWhitespace then
      (if acc.isEmpty then splitWsAux cs [] else String.mk acc.reverse :: splitWsAux cs [])
    else splitWsAux cs (c :: acc)

/-- `line.split()`: split on runs of whitespace, no empty fields. -/
def pySplit (s : String) : List String := splitWsAux s.data []

/-- Worker for `str.split(sep)` with a one-character separator: split at
every occurrence, keeping empty pieces. -/
def splitCharAux (sep : Char) : List Char → List Char → List String
  | [], acc => [String.mk acc.reverse]
  | c :: cs, acc =>
    if c = sep then String.mk acc.reverse :: splitCharAux sep cs []
    else splitCharAux sep cs (c :: acc)

/-- `s.split(sep)`: Python keeps empty pieces, `"".split('.') == ['']`. -/
def pySplitChar (sep : Char) (s : String) : List String := splitCharAux sep s.data []

/-- `s.split('.')` as used on IP addresses. -/
def pySplitDot (s : String) : List String := pySplitChar '.' s

/-- `s.upper()` (ASCII). -/
def pyUpper (s : String) : String := String.mk (s.data.map Char.toUpper)

/-- `s.isdigit()` for ASCII strings: nonempty and all characters `0`-`9`. -/
def pyIsDigit (s : String) : Bool := !s.data.isEmpty && s.data.all Char.isDigit

/-- Decimal value of a digit string (`int(part)` on an `isdigit` string). -/
def decVal (s : String) : Nat :=
  s.data.foldl (fun n c => n * 10 + (c.toNat - 48)) 0

/-- `int(s)` on a whitespace-free field: optional sign followed by digits,
`none` models the `ValueError` raised on anything else. -/
def pyInt (s : String) : Option Int :=
  match s.data with
  | '-' :: rest => if !rest.isEmpty && rest.all Char.isDigit
      then some (-(decVal (String.mk rest) : Int)) else none
  | '+' :: rest => if !rest.isEmpty && rest.all Char.isDigit
      then some ((decVal (String.mk rest) : Int)) else none
  | _ => if pyIsDigit s then some ((decVal s : Int)) else none

/-- `s.startswith(pre)`. -/
def pyStartsWith (s pre : String) : Bool := pre.data.isPrefixOf s.data

/-! ### LogRecord and its validation (`LogRecord.__post_init__`) -/

/-- The six fields of a `LogRecord` dataclass instance. -/
structure LogRecord where
  timestamp : Int
  ip_address : String
  http_method : String
  url : String
  status_code : Int
  response_size : Int
deriving DecidableEq, Repr

/-- The fixed method set of `__post_init__`. -/
def valid_methods : List String :=
  ["GET", "POST", "PUT", "DELETE", "PATCH", "HEAD", "OPTIONS"]

/-- The distinct `ValueError`s `__post_init__` can raise, one per check. -/
inductive VError where
  | invalidTimestamp
  | invalidIPFormat
  | invalidIP
  | invalidMethod
  | invalidURL
  | invalidStatus
  | invalidSize
deriving DecidableEq, Repr

/-- The message of each `ValueError`, built from the candidate fields as the
f-strings in `__post_init__` do. -/
def VError.msg (e : VError) (t : Int) (ip m u : String) (st sz : Int) : String :=
  match e with
  | .invalidTimestamp => s!"Invalid timestamp: {t}"
  | .invalidIPFormat => s!"Invalid IP format: {ip}"
  | .invalidIP => s!"Invalid IP: {ip}"
  | .invalidMethod => s!"Invalid method: {m}"
  | .invalidURL => s!"Invalid URL: {u}"
  | .invalidStatus => s!"Invalid status: {st}"
  | .invalidSize => s!"Invalid size: {sz}"

/-- One octet passes the loop body of `__post_init__`:
`part.isdigit() and 0 <= int(part) <= 255`. -/
def octetOk (p : String) : Bool := pyIsDigit p && decVal p ≤ 255

/-- `LogRecord.__post_init__`: the validation chain run at construction, in
source order; the first failing check raises. -/
def validate (t : Int) (ip m u : String) (st sz : Int) : Except VError LogRecord :=
  if t < 0 then .error .invalidTimestamp
  else
    let parts := pySplitDot ip
    if parts.length ≠ 4 then .error .invalidIPFormat
    else if ¬ parts.all octetOk then .error .invalidIP
    else if m ∉ valid_methods then .error .invalidMethod
    else if ¬ pyStartsWith u "/" then .error .invalidURL
    else if ¬ (100 ≤ st ∧ st ≤ 599) then .error .invalidStatus
    else if sz < 0 then .error .invalidSize
    else .ok ⟨t, ip, m, u, st, sz⟩

/-! ### Spec-side formulation of the validation contract.

These definitions follow the wording of the specification ("fixed check
order: timestamp → ip format → octet range → method → url prefix → status
range → size"), to be compared with `validate` above. -/

/-- Spec wording: each of the seven constraints as a predicate. -/
def specHolds (t : Int) (ip m u : String) (st sz : Int) : VError → Bool
  | .invalidTimestamp => decide (0 ≤ t)
  | .invalidIPFormat => decide ((pySplitDot ip).length = 4)
  | .invalidIP => (pySplitDot ip).all octetOk
  | .invalidMethod => decide (m ∈ valid_methods)
  | .invalidURL => pyStartsWith u "/"
  | .invalidStatus => decide (100 ≤ st ∧ st ≤ 599)
  | .invalidSize => decide (0 ≤ sz)

/-- Spec wording: the fixed check order. -/
def specOrder : List VError :=
  [.invalidTimestamp, .invalidIPFormat, .invalidIP, .invalidMethod,
   .invalidURL, .invalidStatus, .invalidSize]

/-- Spec wording: the first violated constraint in the fixed order, if any. -/
def specFirstViolated (t : Int) (ip m u : String) (st sz : Int) : Option VError :=
  specOrder.find? (fun e => ¬ specHolds t ip m u st sz e)

/-- Spec wording: all seven constraints hold. -/
def specAllValid (t : Int) (ip m u : String) (st sz : Int) : Bool :=
  specOrder.all (specHolds t ip m u st sz)

/-! ### LogParser -/

/-- A collected parse error: `(line_number, stripped line, reason)`. -/
def PError : Type := Nat × String × String
deriving DecidableEq

/-- Outcome of `LogParser.parse_log_line` on one line: a record, an appended
parse error, or a silent skip of a blank line. -/
inductive ParseOutcome where
  | ok (r : LogRecord)
  | err (e : PError)
  | skip
deriving DecidableEq

/-- Reason stored when `int(field)` raises `ValueError` during conversion. -/
def intErrMsg (f : String) : String :=
  s!"invalid literal for int() with base 10: {f}"

/-- `LogParser.parse_log_line`: strip, skip blank lines, check the field
count, convert the three integer fields positionally (timestamp, then
status, then size, as the constructor call evaluates them), then run
`LogRecord` validation; any failure becomes a parse error for this line. -/
def parse_log_line (line : String) (line_number : Nat) : ParseOutcome :=
  let line := pyStrip line
  if line = "" then .skip
  else
    let fields := pySplit line
    if fields.length ≠ 6 then
      let n := fields.length
      .err (line_number, line, s!"expected 6 fields, got {n}")
    else
      let f0 := fields.getD 0 ""
      let f1 := fields.getD 1 ""
      let f2 := pyUpper (fields.getD 2 "")
      let f3 := fields.getD 3 ""
      let f4 := fields.getD 4 ""
      let f5 := fields.getD 5 ""
      match pyInt f0 with
      | none => .err (line_number, line, intErrMsg f0)
      | some t =>
        match pyInt f4 with
        | none => .err (line_number, line, intErrMsg f4)
        | some st =>
          match pyInt f5 with
          | none => .err (line_number, line, intErrMsg f5)
          | some sz =>
            match validate t f1 f2 f3 st sz with
            | .ok r => .ok r
            | .error e => .err (line_number, line, e.msg t f1 f2 f3 st sz)

/-- The loop of `LogParser.read_and_parse` from a given 1-based line number:
accumulates records and parse errors, both in file order. -/
def runParse : List String → Nat → List LogRecord × List PError
  | [], _ => ([], [])
  | l :: ls, n =>
    let rest := runParse ls (n + 1)
    match parse_log_line l n with
    | .ok r => (r :: rest.1, rest.2)
    | .err e => (rest.1, e :: rest.2)
    | .skip => rest

/-- `LogParser.read_and_parse` over the file's lines. -/
def read_and_parse (lines : List String) : List LogRecord × List PError :=
  runParse lines 1

/-- The dictionary returned by `LogParser.get_statistics`. -/
structure ParserStats where
  total_lines : Nat
  parsed : Nat
  errors : Nat
deriving DecidableEq, Repr

/-- `LogParser.get_statistics` over the accumulated records and errors. -/
def get_statistics (records : List LogRecord) (parse_errors : List PError) : ParserStats :=
  { total_lines := records.length + parse_errors.length
    parsed := records.length
    errors := parse_errors.length }

/-! ### Counter and ordered deduplication

`collections.Counter` built from an iterable keeps keys in first-seen order;
it is modelled as an association list grown left to right. -/

/-- Add one occurrence of `x` to a counter association list, preserving
first-seen key order (the `dict` update semantics behind `Counter`). -/
def bump [DecidableEq α] (m : List (α × Nat)) (x : α) : List (α × Nat) :=
  if m.any (fun p => p.1 = x) then
    m.map (fun p => if p.1 = x then (p.1, p.2 + 1) else p)
  else m ++ [(x, 1)]

/-- `Counter(iterable)`: counts with keys in first-seen order. -/
def pyCounter [DecidableEq α] (l : List α) : List (α × Nat) :=
  l.foldl bump []

/-- Worker for first-occurrence deduplication. -/
def dedupFirstAux [DecidableEq α] (seen : List α) : List α → List α
  | [] => []
  | x :: xs => if x ∈ seen then dedupFirstAux seen xs
               else x :: dedupFirstAux (x :: seen) xs

/-- The distinct elements of `l` in first-occurrence order
(the key order of `Counter(l)`). -/
def dedupFirst [DecidableEq α] (l : List α) : List α := dedupFirstAux [] l

/-- `len(set(l))`: the number of distinct elements. -/
def uniqueCount [DecidableEq α] (l : List α) : Nat := (dedupFirst l).length

/-! ### Stable descending sort and `Counter.most_common` -/

/-- Insert into a count-descending list: strictly greater counts stay ahead;
on ties the inserted (earlier) element goes first. This is the placement a
stable descending sort gives. -/
def insertDesc [DecidableEq α] (p : α × Nat) : List (α × Nat) → List (α × Nat)
  | [] => [p]
  | q :: qs => if q.2 ≤ p.2 then p :: q :: qs else q :: insertDesc p qs

/-- Stable sort by count, descending — the semantics of CPython's
`sorted(key=count, reverse=True)` / `heapq.nlargest`, which keep equal-count
elements in their original (first-seen) order. -/
def sortDesc [DecidableEq α] : List (α × Nat) → List (α × Nat)
  | [] => []
  | p :: ps => insertDesc p (sortDesc ps)

/-- `Counter.most_common(n)`: the count-descending stable ranking truncated
to `n` entries; CPython's `heapq.nlargest` returns `[]` for `n ≤ 0`. -/
def most_common [DecidableEq α] (m : List (α × Nat)) (n : Int) : List (α × Nat) :=
  (sortDesc m).take n.toNat

/-! ### LogFilter -/

/-- The state `LogFilter.__init__` leaves behind. -/
structure LogFilter where
  method : Option String
  status_single : Option Int
  status_start : Option Int
  status_end : Option Int
  start_time : Option Int
  end_time : Option Int
deriving DecidableEq, Repr

/-- Python truthiness of an optional string (`if self.method:`). -/
def truthyStr : Option String → Bool
  | none => false
  | some s => s ≠ ""

/-- Python truthiness of an optional integer (`if self.start_time:`):
`None` and `0` are falsy. -/
def truthyInt : Option Int → Bool
  | none => false
  | some v => v ≠ 0

/-- `LogFilter.__init__`: uppercase and store the method when truthy, parse
the status criterion (a string with a dash is an inclusive range, otherwise
a single code; a malformed string raises, modelled as `none`), and store the
time bounds unchanged. -/
def mkFilter (method : Option String) (status : Option String)
    (start_time end_time : Option Int) : Option LogFilter :=
  let m := if truthyStr method then some (pyUpper (method.getD "")) else none
  let base : LogFilter :=
    { method := m, status_single := none, status_start := none,
      status_end := none, start_time := start_time, end_time := end_time }
  if truthyStr status then
    let s := status.getD ""
    if s.data.contains '-' then
      match pySplitChar '-' s with
      | [a, b] =>
        match pyInt a, pyInt b with
        | some sa, some sb =>
          some { base with status_start := some sa, status_end := some sb }
        | _, _ => none
      | _ => none
    else
      match pyInt s with
      | some v => some { base with status_single := some v }
      | none => none
  else some base

/-- `LogFilter.apply`: the four successive list comprehensions, each guarded
as in the source (`if self.method:`, `is not None` for status,
truthiness for the time bounds). -/
def LogFilter.apply (f : LogFilter) (records : List LogRecord) : List LogRecord :=
  let l1 := if truthyStr f.method then
      records.filter (fun r => r.http_method = f.method.getD "") else records
  let l2 := match f.status_single with
    | some v => l1.filter (fun r => r.status_code = v)
    | none => match f.status_start with
      | some lo => l1.filter (fun r => lo ≤ r.status_code ∧ r.status_code ≤ f.status_end.getD 0)
      | none => l1
  let l3 := if truthyInt f.start_time then
      l2.filter (fun r => f.start_time.getD 0 ≤ r.timestamp) else l2
  let l4 := if truthyInt f.end_time then
      l3.filter (fun r => r.timestamp ≤ f.end_time.getD 0) else l3
  l4

/-! ### TrafficAnalyzer -/

/-- The dictionary returned by `calculate_basic_stats`. -/
structure BasicStats where
  total_requests : Nat
  unique_ips : Nat
  total_data : Int
deriving DecidableEq, Repr

/-- `TrafficAnalyzer.calculate_basic_stats`. -/
def calculate_basic_stats (records : List LogRecord) : BasicStats :=
  { total_requests := records.length
    unique_ips := uniqueCount (records.map (fun i => i.ip_address))
    total_data := (records.map (fun i => i.response_size)).sum }

/-- `TrafficAnalyzer.get_top_ips`: `Counter(ips).most_common(n)`. -/
def get_top_ips (records : List LogRecord) (n : Int) : List (String × Nat) :=
  most_common (pyCounter (records.map (fun i => i.ip_address))) n

/-- `TrafficAnalyzer.get_method_distribution`: `(count/total)*100` per
method actually present; the comprehension runs over the counter, so on an
empty collection no division is evaluated. -/
def get_method_distribution (records : List LogRecord) : List (String × Rat) :=
  let counter := pyCounter (records.map (fun i => i.http_method))
  let total : Nat := records.length
  counter.map (fun p => (p.1, ((p.2 : Rat) / (total : Rat)) * 100))

/-- `TrafficAnalyzer.get_top_urls`: `Counter(urls).most_common(n)`. -/
def get_top_urls (records : List LogRecord) (n : Int) : List (String × Nat) :=
  most_common (pyCounter (records.map (fun i => i.url))) n

/-- The dictionary returned by `calculate_error_metrics`. -/
structure ErrorMetrics where
  success_2xx : Nat
  errors_4xx : Nat
  errors_5xx : Nat
  avg_response_2xx : Rat
deriving DecidableEq, Repr

/-- `TrafficAnalyzer.calculate_error_metrics`: status-class counts and the
average 2xx response size, `0` when no 2xx record exists. -/
def calculate_error_metrics (records : List LogRecord) : ErrorMetrics :=
  let success := records.filter (fun i => 200 ≤ i.status_code ∧ i.status_code < 300)
  let e4 := records.filter (fun i => 400 ≤ i.status_code ∧ i.status_code < 500)
  let e5 := records.filter (fun i => 500 ≤ i.status_code ∧ i.status_code < 600)
  let avg : Rat := if success.isEmpty then 0
    else (((success.map (fun r => r.response_size)).sum : Int) : Rat) / (success.length : Rat)
  { success_2xx := success.length
    errors_4xx := e4.length
    errors_5xx := e5.length
    avg_response_2xx := avg }

/-- The dictionary returned by `analyze_last_24h`; the per-hour counts are
the `defaultdict` as an association list in first-seen hour order. -/
structure Last24h where
  unique_ips : Nat
  requests_per_hour : List (Nat × Nat)
deriving DecidableEq, Repr

/-- `TrafficAnalyzer.analyze_last_24h`, parameterised by `hourOf`, the
local-calendar hour `datetime.fromtimestamp(ts).hour` (timezone dependent,
so kept abstract). Guards the empty collection, else restricts to
timestamps within 86400 seconds of the maximum and accumulates the
per-hour `defaultdict` — which is exactly `Counter` of the subset's hours. -/
def analyze_last_24h (hourOf : Int → Nat) (records : List LogRecord) : Last24h :=
  match records with
  | [] => { unique_ips := 0, requests_per_hour := [] }
  | r :: rs =>
    let max_ts := (rs.map (fun i => i.timestamp)).foldl max r.timestamp
    let cutoff := max_ts - (24 * 60 * 60)
    let last_24h := (r :: rs).filter (fun i => cutoff ≤ i.timestamp)
    { unique_ips := uniqueCount (last_24h.map (fun i => i.ip_address))
      requests_per_hour := pyCounter (last_24h.map (fun i => hourOf i.timestamp)) }


/-! ### Further definitions used by the statements -/

/-- The input lines of the specification's end-to-end scenario. -/
def demoLines : List String :=
  ["1000 10.0.0.1 GET /a 200 500", "not a valid line", "2000 10.0.0.2 POST /b 404 0"]

/-- Following the spec's words for `topIPs`: the distinct IP addresses in
first-occurrence order, each with its request count, stably sorted by count
descending (so ties keep first-occurrence order). -/
def specRankedIPs (records : List LogRecord) : List (String × Nat) :=
  sortDesc ((dedupFirst (records.map (fun r => r.ip_address))).map
    (fun ip => (ip, (records.map (fun r => r.ip_address)).count ip)))

/-- The record predicate of the method criterion of a filter (trivially true
when the criterion is absent). -/
def methodPred (f : LogFilter) (r : LogRecord) : Bool :=
  !truthyStr f.method || decide (r.http_method = f.method.getD "")

/-- The record predicate of the status criterion of a filter. -/
def statusPred (f : LogFilter) (r : LogRecord) : Bool :=
  match f.status_single with
  | some v => decide (r.status_code = v)
  | none =>
    match f.status_start with
    | some lo => decide (lo ≤ r.status_code ∧ r.status_code ≤ f.status_end.getD 0)
    | none => true

/-- The record predicate of the start-time bound of a filter. -/
def startPred (f : LogFilter) (r : LogRecord) : Bool :=
  !truthyInt f.start_time || decide (f.start_time.getD 0 ≤ r.timestamp)

/-- The record predicate of the end-time bound of a filter. -/
def endPred (f : LogFilter) (r : LogRecord) : Bool :=
  !truthyInt f.end_time || decide (r.timestamp ≤ f.end_time.getD 0)

/-- The conjunction of all four criteria of a filter. -/
def filterPred (f : LogFilter) (r : LogRecord) : Bool :=
  methodPred f r && statusPred f r && startPred f r && endPred f r

/-- The filter carrying only the method criterion of `f`. -/
def onlyMethod (f : LogFilter) : LogFilter :=
  { method := f.method, status_single := none, status_start := none,
    status_end := none, start_time := none, end_time := none }

/-- The filter carrying only the status criterion of `f`. -/
def onlyStatus (f : LogFilter) : LogFilter :=
  { method := none, status_single := f.status_single, status_start := f.status_start,
    status_end := f.status_end, start_time := none, end_time := none }

/-- The filter carrying only the time-window criteria of `f`. -/
def onlyTime (f : LogFilter) : LogFilter :=
  { method := none, status_single := none, status_start := none,
    status_end := none, start_time := f.start_time, end_time := f.end_time }

/-! ### Helper lemmas: first-occurrence deduplication and `Counter` -/

section CounterLemmas

variable {α : Type} [DecidableEq α]

theorem mem_dedupFirstAux (seen l : List α) (x : α) :
    x ∈ dedupFirstAux seen l ↔ x ∈ l ∧ x ∉ seen := by
  induction l generalizing seen with
  | nil => simp [dedupFirstAux]
  | cons y ys ih =>
    by_cases hy : y ∈ seen
    · rw [dedupFirstAux, if_pos hy, ih]
      simp only [List.mem_cons]
      constructor
      · rintro ⟨h1, h2⟩
        exact ⟨Or.inr h1, h2⟩
      · rintro ⟨h1 | h1, h2⟩
        · subst h1
          exact absurd hy h2
        · exact ⟨h1, h2⟩
    · rw [dedupFirstAux, if_neg hy]
      simp only [List.mem_cons, ih, List.mem_cons]
      constructor
      · rintro (rfl | ⟨h1, h2⟩)
        · exact ⟨Or.inl rfl, hy⟩
        · exact ⟨Or.inr h1, fun hs => h2 (Or.inr hs)⟩
      · rintro ⟨h1 | h1, h2⟩
        · exact Or.inl h1
        · by_cases hxy : x = y
          · exact Or.inl hxy
          · refine Or.inr ⟨h1, fun hs => ?_⟩
            rcases hs with h | h
            · exact hxy h
            · exact h2 h

theorem mem_dedupFirst (l : List α) (x : α) : x ∈ dedupFirst l ↔ x ∈ l := by
  simp [dedupFirst, mem_dedupFirstAux]

theorem dedupFirstAux_append_singleton (seen l : List α) (x : α) :
    dedupFirstAux seen (l ++ [x]) =
      dedupFirstAux seen l ++ (if x ∈ seen ∨ x ∈ l then [] else [x]) := by
  induction l generalizing seen with
  | nil => by_cases h : x ∈ seen <;> simp [dedupFirstAux, h]
  | cons y ys ih =>
    by_cases hy : y ∈ seen
    · simp only [List.cons_append, dedupFirstAux, if_pos hy, ih]
      by_cases hx : x ∈ seen <;> by_cases hxy : x = y <;> by_cases hys : x ∈ ys <;>
        simp_all
    · simp only [List.cons_append, dedupFirstAux, if_neg hy, ih]
      by_cases hx : x ∈ seen <;> by_cases hxy : x = y <;> by_cases hys : x ∈ ys <;>
        simp_all

theorem dedupFirst_append_singleton (l : List α) (x : α) :
    dedupFirst (l ++ [x]) = dedupFirst l ++ (if x ∈ l then [] else [x]) := by
  simp [dedupFirst, dedupFirstAux_append_singleton]

theorem pyCounter_eq (l : List α) :
    pyCounter l = (dedupFirst l).map (fun x => (x, l.count x)) := by
  induction l using List.reverseRecOn with
  | nil => simp [pyCounter, dedupFirst, dedupFirstAux]
  | append_singleton l x ih =>
    have hfold : pyCounter (l ++ [x]) = bump (pyCounter l) x := by
      simp [pyCounter, List.foldl_append]
    rw [hfold, ih, bump, dedupFirst_append_singleton]
    have hany : ((dedupFirst l).map (fun y => (y, l.count y))).any (fun p => p.1 = x) =
        decide (x ∈ l) := by
      by_cases h : x ∈ l
      · simp only [h, decide_True]
        rw [List.any_eq_true]
        exact ⟨(x, l.count x), List.mem_map.mpr ⟨x, (mem_dedupFirst l x).mpr h, rfl⟩, by simp⟩
      · simp only [h, decide_False]
        rw [List.any_eq_false]
        intro a ha
        rcases List.mem_map.mp ha with ⟨y, hy, rfl⟩
        simp only [decide_eq_true_eq]
        intro heq
        exact h (heq ▸ (mem_dedupFirst l y).mp hy)
    by_cases hx : x ∈ l
    · rw [if_pos (by simp [hany, hx])]
      simp only [if_pos hx, List.append_nil, List.map_map]
      apply List.map_congr_left
      intro y hy
      rw [mem_dedupFirst] at hy
      by_cases hxy : y = x <;>
        simp [Function.comp, hxy, List.count_append, List.count_singleton]
    · rw [if_neg (by simp [hany, hx])]
      simp only [if_neg hx, List.map_append]
      congr 1
      · apply List.map_congr_left
        intro y hy
        rw [mem_dedupFirst] at hy
        have : ¬ (x == y) = true := by
          simp; rintro rfl; exact hx hy
        simp [List.count_append, List.count_singleton, this]
      · have : l.count x = 0 := List.count_eq_zero.mpr hx
        simp [List.count_append, List.count_singleton, this]

theorem lookup_map_fn (f : α → β) (df : List α) (h : α) :
    List.lookup h (df.map (fun x => (x, f x))) =
      if h ∈ df then some (f h) else none := by
  induction df with
  | nil => simp [List.lookup]
  | cons y ys ih =>
    simp only [List.map_cons, List.lookup]
    by_cases hy : h = y
    · subst hy
      simp
    · have hbeq : (h == y) = false := beq_eq_false_iff_ne.mpr hy
      simp [hbeq, ih, hy]

end CounterLemmas

/-- The association read out of a counter is the occurrence count. -/
theorem lookup_pyCounter {α : Type} [DecidableEq α] (l : List α) (x : α) :
    ((pyCounter l).lookup x).getD 0 = l.count x := by
  rw [pyCounter_eq, lookup_map_fn]
  by_cases h : x ∈ dedupFirst l
  · simp [h]
  · rw [if_neg h]
    rw [mem_dedupFirst] at h
    simp [List.count_eq_zero.mpr h]

/-! ### Helper lemmas: the stable descending sort -/

/-- Insertion grows the length by one. -/
theorem insertDesc_length {α : Type} [DecidableEq α] (p : α × Nat) (l : List (α × Nat)) :
    (insertDesc p l).length = l.length + 1 := by
  induction l with
  | nil => rfl
  | cons q qs ih =>
    rw [insertDesc]
    by_cases h : q.2 ≤ p.2 <;> simp [h, ih]

/-- Membership after insertion. -/
theorem mem_insertDesc {α : Type} [DecidableEq α] (p x : α × Nat) (l : List (α × Nat)) :
    x ∈ insertDesc p l ↔ x = p ∨ x ∈ l := by
  induction l with
  | nil => simp [insertDesc]
  | cons q qs ih =>
    rw [insertDesc]
    by_cases h : q.2 ≤ p.2 <;> simp [h, ih] <;> tauto

/-- Insertion preserves the count-descending order. -/
theorem insertDesc_pairwise {α : Type} [DecidableEq α] (p : α × Nat) (l : List (α × Nat))
    (hl : l.Pairwise (fun a b => b.2 ≤ a.2)) :
    (insertDesc p l).Pairwise (fun a b => b.2 ≤ a.2) := by
  induction l with
  | nil => simp [insertDesc]
  | cons q qs ih =>
    rw [insertDesc]
    rcases List.pairwise_cons.mp hl with ⟨hq, hqs⟩
    by_cases h : q.2 ≤ p.2
    · rw [if_pos h]
      refine List.pairwise_cons.mpr ⟨?_, hl⟩
      intro b hb
      rcases List.mem_cons.mp hb with rfl | hb2
      · exact h
      · exact le_trans (hq b hb2) h
    · rw [if_neg h]
      refine List.pairwise_cons.mpr ⟨?_, ih hqs⟩
      intro b hb
      rcases (mem_insertDesc p b qs).mp hb with rfl | hb2
      · omega
      · exact hq b hb2

/-- The sort is a permutation in length. -/
theorem sortDesc_length {α : Type} [DecidableEq α] (l : List (α × Nat)) :
    (sortDesc l).length = l.length := by
  induction l with
  | nil => rfl
  | cons p ps ih => rw [sortDesc, insertDesc_length, ih, List.length_cons]

/-- The sort's output is count-descending. -/
theorem sortDesc_pairwise {α : Type} [DecidableEq α] (l : List (α × Nat)) :
    (sortDesc l).Pairwise (fun a b => b.2 ≤ a.2) := by
  induction l with
  | nil => simp [sortDesc]
  | cons p ps ih => exact insertDesc_pairwise p _ ih

/-- `foldl max` computes an element of the list that bounds the list. -/
theorem foldl_max_spec (a : Int) (l : List Int) :
    l.foldl max a ∈ a :: l ∧ ∀ x ∈ a :: l, x ≤ l.foldl max a := by
  induction l generalizing a with
  | nil => simp
  | cons b bs ih =>
    obtain ⟨hmem, hle⟩ := ih (max a b)
    rw [List.foldl_cons]
    constructor
    · rcases List.mem_cons.mp hmem with h | h
      · rcases max_choice a b with hm | hm
        · rw [h, hm]; exact List.mem_cons_self _ _
        · rw [h, hm]
          exact List.mem_cons_of_mem _ (List.mem_cons_self _ _)
      · exact List.mem_cons_of_mem _ (List.mem_cons_of_mem _ h)
    · intro x hx
      rcases List.mem_cons.mp hx with rfl | hx2
      · exact le_trans (le_max_left x b) (hle _ (List.mem_cons_self _ _))
      · rcases List.mem_cons.mp hx2 with rfl | hx3
        · exact le_trans (le_max_right a x) (hle _ (List.mem_cons_self _ _))
        · exact hle x (List.mem_cons_of_mem _ hx3)

/-! ### Helper lemmas: the line parser -/

/-- A line that is not blank after stripping is never silently skipped. -/
theorem parse_log_line_ne_skip (line : String) (ln : Nat) (h : pyStrip line ≠ "") :
    parse_log_line line ln ≠ .skip := by
  simp only [parse_log_line, if_neg h]
  repeat' split
  all_goals simp

/-- A line is silently skipped exactly when it is blank after stripping. -/
theorem parse_log_line_eq_skip (line : String) (ln : Nat) :
    parse_log_line line ln = .skip ↔ pyStrip line = "" := by
  constructor
  · intro h
    by_contra hb
    exact parse_log_line_ne_skip line ln hb h
  · intro h
    simp [parse_log_line, h]

/-- Each non-blank line contributes exactly one record or one parse error. -/
theorem runParse_length (lines : List String) (n : Nat) :
    (runParse lines n).1.length + (runParse lines n).2.length =
      (lines.filter (fun l => pyStrip l ≠ "")).length := by
  induction lines generalizing n with
  | nil => simp [runParse]
  | cons l ls ih =>
    by_cases hb : pyStrip l = ""
    · have hskip : parse_log_line l n = .skip := (parse_log_line_eq_skip l n).mpr hb
      simp only [runParse, hskip, List.filter_cons]
      rw [if_neg (by simpa using hb)]
      exact ih (n + 1)
    · have hns := parse_log_line_ne_skip l n hb
      have hih := ih (n + 1)
      cases hout : parse_log_line l n with
      | skip => exact absurd hout hns
      | ok r =>
        simp only [runParse, hout, List.filter_cons]
        rw [if_pos (by simpa using hb)]
        simp only [List.length_cons]
        omega
      | err e =>
        simp only [runParse, hout, List.filter_cons]
        rw [if_pos (by simpa using hb)]
        simp only [List.length_cons]
        omega

/-! ### Helper lemmas: the filter engine -/

/-- A guarded filter pass is one filter with the guard folded into the
predicate. -/
theorem filter_guard {α : Type} (c : Bool) (p : α → Bool) (l : List α) :
    (if c = true then l.filter p else l) = l.filter (fun a => !c || p a) := by
  cases c <;> simp

/-- `LogFilter.apply` is one filter by the conjunction of the four criterion
predicates. -/
theorem apply_eq_filter (f : LogFilter) (records : List LogRecord) :
    f.apply records = records.filter (filterPred f) := by
  have hs : ∀ l : List LogRecord,
      (match f.status_single with
       | some v => l.filter (fun r => r.status_code = v)
       | none => match f.status_start with
         | some lo => l.filter (fun r => lo ≤ r.status_code ∧ r.status_code ≤ f.status_end.getD 0)
         | none => l) = l.filter (statusPred f) := by
    intro l
    unfold statusPred
    cases f.status_single with
    | some v => simp
    | none =>
      cases f.status_start with
      | some lo => simp
      | none => simp
  simp only [LogFilter.apply]
  rw [filter_guard, hs, filter_guard, filter_guard]
  simp only [List.filter_filter]
  apply List.filter_congr
  intro r _
  unfold filterPred methodPred startPred endPred
  cases truthyStr f.method <;> cases statusPred f r <;>
    cases truthyInt f.start_time <;> cases truthyInt f.end_time <;>
      cases hd : decide (r.http_method = f.method.getD "") <;>
        simp [hd] <;>
          cases decide (f.start_time.getD 0 ≤ r.timestamp) <;>
            cases decide (r.timestamp ≤ f.end_time.getD 0) <;> simp

/-- Chained filter passes compute the same result in any order. -/
theorem foldl_filters_perm {α : Type} (gs hs : List (List α → List α))
    (hperm : gs.Perm hs) (hfil : ∀ g ∈ gs, ∃ p : α → Bool, g = fun l => l.filter p) :
    ∀ l : List α, gs.foldl (fun acc g => g acc) l = hs.foldl (fun acc g => g acc) l := by
  induction hperm with
  | nil => intro l; rfl
  | cons g _ ih =>
    intro l
    simp only [List.foldl_cons]
    exact ih (fun g' hg' => hfil g' (List.mem_cons_of_mem _ hg')) (g l)
  | swap g1 g2 rest =>
    intro l
    simp only [List.foldl_cons]
    obtain ⟨p1, hp1⟩ := hfil g1 (by simp)
    obtain ⟨p2, hp2⟩ := hfil g2 (by simp)
    subst hp1
    subst hp2
    congr 1
    simp only [List.filter_filter]
    exact List.filter_congr (fun a _ => Bool.and_comm _ _)
  | trans h12 _ ih1 ih2 =>
    intro l
    rw [ih1 hfil l]
    refine ih2 (fun g hg => hfil g (h12.mem_iff.mpr hg)) l

/-- The method-only filter is one filter pass by the method predicate. -/
theorem only_method_apply (f : LogFilter) :
    (onlyMethod f).apply = fun l => l.filter (methodPred f) := by
  funext l
  rw [apply_eq_filter]
  exact List.filter_congr fun r _ => by
    simp [filterPred, onlyMethod, methodPred, statusPred, startPred, endPred,
      truthyStr, truthyInt]

/-- The status-only filter is one filter pass by the status predicate. -/
theorem only_status_apply (f : LogFilter) :
    (onlyStatus f).apply = fun l => l.filter (statusPred f) := by
  funext l
  rw [apply_eq_filter]
  exact List.filter_congr fun r _ => by
    simp [filterPred, onlyStatus, methodPred, statusPred, startPred, endPred,
      truthyStr, truthyInt]

/-- The time-only filter is one filter pass by both time-bound predicates. -/
theorem only_time_apply (f : LogFilter) :
    (onlyTime f).apply = fun l => l.filter (fun r => startPred f r && endPred f r) := by
  funext l
  rw [apply_eq_filter]
  exact List.filter_congr fun r _ => by
    simp [filterPred, onlyTime, methodPred, statusPred, startPred, endPred,
      truthyStr, truthyInt]

/-! ### The claims -/

/-- C1: `LogRecord` construction returns a record with exactly the six given
field values when all constraints hold, and otherwise fails with the
`ValueError` of the first violated constraint in the fixed order
timestamp → ip format → octet range → method → url prefix → status range →
size: `validate` agrees pointwise with the spec-side first-violation
computation, and no violation is reported exactly when all constraints
hold. -/
theorem C1_validation_order (t : Int) (ip m u : String) (st sz : Int) :
    (specFirstViolated t ip m u st sz = none ↔ specAllValid t ip m u st sz = true) ∧
    validate t ip m u st sz =
      (match specFirstViolated t ip m u st sz with
       | none => .ok ⟨t, ip, m, u, st, sz⟩
       | some e => .error e) := by
  constructor
  · simp [specFirstViolated, specAllValid, List.find?_eq_none, List.all_eq_true]
  · unfold validate specFirstViolated specOrder
    simp only [List.find?]
    split_ifs with h1 h2 h3 h4 h5 h6 h7 <;>
      simp_all [specHolds, decide_eq_true_eq, not_lt]

/-- C2 (counterexample): on the spec's three scenario lines the one parse
error is at line 2 with reason "expected 6 fields, got 4" — the line
"not a valid line" has four whitespace-separated fields, not two, so the
claimed reason "expected 6 fields, got 2" is wrong. -/
theorem C2_counterexample :
    (read_and_parse demoLines).2 = [(2, "not a valid line", "expected 6 fields, got 4")] ∧
    ("expected 6 fields, got 4" : String) ≠ "expected 6 fields, got 2" := by
  constructor
  · decide
  · decide

/-- C2 (amended): the scenario produces exactly the two records, one parse
error at line 2 with reason "expected 6 fields, got 4", basic statistics
(2 requests, 2 unique IPs, 500 bytes) and error metrics (one 2xx, one 4xx,
no 5xx, average 2xx response size 500). -/
theorem C2_scenario :
    (read_and_parse demoLines).1 =
      [⟨1000, "10.0.0.1", "GET", "/a", 200, 500⟩, ⟨2000, "10.0.0.2", "POST", "/b", 404, 0⟩] ∧
    (read_and_parse demoLines).2 = [(2, "not a valid line", "expected 6 fields, got 4")] ∧
    calculate_basic_stats (read_and_parse demoLines).1 =
      { total_requests := 2, unique_ips := 2, total_data := 500 } ∧
    calculate_error_metrics (read_and_parse demoLines).1 =
      { success_2xx := 1, errors_4xx := 1, errors_5xx := 0, avg_response_2xx := 500 } := by
  refine ⟨by decide, by decide, by decide, ?_⟩
  have h : (read_and_parse demoLines).1 =
      [⟨1000, "10.0.0.1", "GET", "/a", 200, 500⟩, ⟨2000, "10.0.0.2", "POST", "/b", 404, 0⟩] := by
    decide
  rw [h]
  unfold calculate_error_metrics
  norm_num [List.filter]

/-- C3 (counterexample): over one record, `get_top_ips` with n = 0 returns
the empty list, not the full ranking of the 1 distinct IP — n ≤ 0 is not
clamped to the distinct-IP count (`heapq.nlargest` returns `[]` there). -/
theorem C3_counterexample :
    get_top_ips [⟨1000, "10.0.0.1", "GET", "/a", 200, 500⟩] 0 = [] ∧
    uniqueCount ([(⟨1000, "10.0.0.1", "GET", "/a", 200, 500⟩ : LogRecord)].map
      (fun r => r.ip_address)) = 1 := by
  refine ⟨by decide, by decide⟩

/-- C3 (amended): `get_top_ips` returns the first `max n 0` entries (so for
n ≤ 0 the empty list, and for n beyond the distinct count all of them) of
the ranking that lists the distinct IPs in first-occurrence order with
their counts, stably sorted by count descending; its length is
`min n.toNat distinct_count` and its counts are non-increasing. -/
theorem C3_top_ips (records : List LogRecord) (n : Int) :
    get_top_ips records n = (specRankedIPs records).take n.toNat ∧
    (get_top_ips records n).length =
      min n.toNat (uniqueCount (records.map (fun r => r.ip_address))) ∧
    (get_top_ips records n).Pairwise (fun a b => b.2 ≤ a.2) := by
  have hbase : get_top_ips records n = (specRankedIPs records).take n.toNat := by
    unfold get_top_ips most_common specRankedIPs
    rw [pyCounter_eq]
  refine ⟨hbase, ?_, ?_⟩
  · rw [hbase]
    unfold specRankedIPs
    rw [List.length_take, sortDesc_length, List.length_map]
    rfl
  · rw [hbase]
    exact List.Pairwise.sublist (List.take_sublist _ _) (sortDesc_pairwise _)

/-- C4 (counterexample): a filter built with end timestamp 0 keeps a record
with timestamp 5 — `if self.end_time:` treats the given bound 0 as absent,
so "a record passes only if its timestamp <= e, including e = 0" is false. -/
theorem C4_counterexample :
    mkFilter none none none (some 0) =
      some ⟨none, none, none, none, none, some 0⟩ ∧
    LogFilter.apply ⟨none, none, none, none, none, some 0⟩
      [⟨5, "10.0.0.1", "GET", "/a", 200, 100⟩] =
      [⟨5, "10.0.0.1", "GET", "/a", 200, 100⟩] ∧
    ¬ ((5 : Int) ≤ 0) := by
  refine ⟨by decide, by decide, by decide⟩

/-- C4 (amended): a time-window filter keeps exactly the records meeting
each truthy bound inclusively; a bound given as 0 (like an absent one) is
falsy and imposes no constraint. -/
theorem C4_time_window (records : List LogRecord) (s e : Option Int) (f : LogFilter)
    (hf : mkFilter none none s e = some f) :
    f.apply records = records.filter (fun r =>
      (truthyInt s = true → s.getD 0 ≤ r.timestamp) ∧
      (truthyInt e = true → r.timestamp ≤ e.getD 0)) := by
  have hfeq : f = ⟨none, none, none, none, s, e⟩ := by
    unfold mkFilter at hf
    simp [truthyStr] at hf
    exact hf.symm
  subst hfeq
  rw [apply_eq_filter]
  apply List.filter_congr
  intro r _
  unfold filterPred methodPred statusPred startPred endPred
  simp only [truthyStr, Bool.not_false, Bool.true_or, Bool.true_and]
  cases hs : truthyInt s <;> cases he : truthyInt e <;>
    cases hds : decide (s.getD 0 ≤ r.timestamp) <;>
      cases hde : decide (r.timestamp ≤ e.getD 0) <;>
        simp_all

/-- C4 witness: start 10 and end 0 keep exactly the record with timestamp
15 — the start bound applies, the zero end bound does not. -/
theorem C4_witness :
    LogFilter.apply ⟨none, none, none, none, some 10, some 0⟩
      [⟨5, "10.0.0.1", "GET", "/a", 200, 100⟩, ⟨15, "10.0.0.2", "GET", "/b", 200, 100⟩] =
      [⟨15, "10.0.0.2", "GET", "/b", 200, 100⟩] := by
  have h := C4_time_window
    [⟨5, "10.0.0.1", "GET", "/a", 200, 100⟩, ⟨15, "10.0.0.2", "GET", "/b", 200, 100⟩]
    (some 10) (some 0) ⟨none, none, none, none, some 10, some 0⟩ (by decide)
  rw [h]
  decide

/-- C5: the method distribution has exactly the methods present in the
collection as keys (in first-seen order), each mapped to
`100 * count / total_requests`, and is the empty mapping for the empty
collection — the comprehension runs over the empty counter, so the
division is never evaluated with a zero denominator. -/
theorem C5_method_distribution (records : List LogRecord) :
    (get_method_distribution records).map Prod.fst =
      dedupFirst (records.map (fun r => r.http_method)) ∧
    (∀ p ∈ get_method_distribution records,
      p.2 = 100 * (((records.map (fun r => r.http_method)).count p.1 : Rat)) /
        ((records.length : Rat))) ∧
    (records = [] → get_method_distribution records = []) := by
  refine ⟨?_, ?_, ?_⟩
  · unfold get_method_distribution
    rw [pyCounter_eq]
    simp only [List.map_map]
    exact (List.map_congr_left (fun x _ => rfl)).trans (List.map_id _)
  · intro p hp
    unfold get_method_distribution at hp
    rw [pyCounter_eq] at hp
    simp only [List.map_map, List.mem_map, Function.comp] at hp
    obtain ⟨x, hx, rfl⟩ := hp
    show ((((records.map (fun r => r.http_method)).count x : Nat) : Rat) /
      ((records.length : Rat))) * 100 = _
    ring
  · intro h
    subst h
    rfl

/-- C5 witness: at one GET record the key list is exactly ["GET"], and the
empty collection yields the empty mapping. -/
theorem C5_witness :
    (get_method_distribution [⟨1000, "10.0.0.1", "GET", "/a", 200, 500⟩]).map Prod.fst =
      ["GET"] ∧
    get_method_distribution [] = [] := by
  constructor
  · exact (C5_method_distribution [⟨1000, "10.0.0.1", "GET", "/a", 200, 500⟩]).1
  · exact (C5_method_distribution []).2.2 rfl

/-- C6: on the empty collection `analyze_last_24h` returns zero unique IPs
and the empty per-hour mapping without taking a maximum; on a non-empty
collection, for the maximal timestamp M it restricts to the records with
timestamp ≥ M - 86400 and reports the distinct-IP count of that subset and
a per-hour mapping whose count at every hour h is the number of subset
records whose timestamp falls in hour h. -/
theorem C6_last_24h (hourOf : Int → Nat) (records : List LogRecord) :
    analyze_last_24h hourOf [] = ⟨0, []⟩ ∧
    (∀ M : Int, M ∈ records.map (fun r => r.timestamp) →
      (∀ t ∈ records.map (fun r => r.timestamp), t ≤ M) →
      analyze_last_24h hourOf records =
        { unique_ips := uniqueCount
            ((records.filter (fun r => M - 86400 ≤ r.timestamp)).map (fun r => r.ip_address))
          requests_per_hour := pyCounter
            ((records.filter (fun r => M - 86400 ≤ r.timestamp)).map
              (fun r => hourOf r.timestamp)) } ∧
      ∀ h : Nat,
        ((analyze_last_24h hourOf records).requests_per_hour.lookup h).getD 0 =
          ((records.filter (fun r => M - 86400 ≤ r.timestamp)).map
            (fun r => hourOf r.timestamp)).count h) := by
  constructor
  · rfl
  · intro M hmem hub
    cases records with
    | nil => simp at hmem
    | cons r rs =>
      have hspec := foldl_max_spec r.timestamp (rs.map (fun i => i.timestamp))
      have hform : r.timestamp :: rs.map (fun i => i.timestamp) =
          (r :: rs).map (fun i => i.timestamp) := by simp
      have hmax : (rs.map (fun i => i.timestamp)).foldl max r.timestamp = M := by
        apply le_antisymm
        · exact hub _ (by rw [← hform]; exact hspec.1)
        · exact hspec.2 M (by rw [hform]; exact hmem)
      have heq : analyze_last_24h hourOf (r :: rs) =
          { unique_ips := uniqueCount
              (((r :: rs).filter (fun i => M - 86400 ≤ i.timestamp)).map
                (fun i => i.ip_address))
            requests_per_hour := pyCounter
              (((r :: rs).filter (fun i => M - 86400 ≤ i.timestamp)).map
                (fun i => hourOf i.timestamp)) } := by
        simp only [analyze_last_24h, hmax]
        norm_num
      refine ⟨heq, ?_⟩
      intro h
      rw [heq]
      exact lookup_pyCounter _ h

/-- C7: applying the method-only, status-only and time-window-only filters
one after another, in any order, gives the same records as one filter
carrying all criteria simultaneously. -/
theorem C7_filter_composition (f : LogFilter) (records : List LogRecord)
    (gs : List (List LogRecord → List LogRecord))
    (hperm : gs.Perm [(onlyMethod f).apply, (onlyStatus f).apply, (onlyTime f).apply]) :
    gs.foldl (fun acc g => g acc) records = f.apply records := by
  have hfil : ∀ g ∈ gs, ∃ p : LogRecord → Bool, g = fun l => l.filter p := by
    intro g hg
    have hmem := hperm.mem_iff.mp hg
    simp only [List.mem_cons, List.mem_singleton, List.not_mem_nil, or_false] at hmem
    rcases hmem with h | h | h
    · exact ⟨methodPred f, h ▸ only_method_apply f⟩
    · exact ⟨statusPred f, h ▸ only_status_apply f⟩
    · exact ⟨fun r => startPred f r && endPred f r, h ▸ only_time_apply f⟩
  rw [foldl_filters_perm gs _ hperm hfil records]
  simp only [List.foldl_cons, List.foldl_nil, only_method_apply, only_status_apply,
    only_time_apply]
  rw [apply_eq_filter f]
  simp only [List.filter_filter]
  apply List.filter_congr
  intro r _
  unfold filterPred
  cases methodPred f r <;> cases statusPred f r <;> cases startPred f r <;>
    cases endPred f r <;> simp

/-- C7 witness: status, method and time filters chained in a swapped order
equal the combined filter on four concrete records, keeping exactly one. -/
theorem C7_witness :
    [(onlyStatus ⟨some "GET", some 200, none, none, some 10, none⟩).apply,
     (onlyMethod ⟨some "GET", some 200, none, none, some 10, none⟩).apply,
     (onlyTime ⟨some "GET", some 200, none, none, some 10, none⟩).apply].foldl
        (fun acc g => g acc)
        [⟨5, "10.0.0.1", "GET", "/a", 200, 100⟩,
         ⟨15, "10.0.0.2", "GET", "/b", 200, 50⟩,
         ⟨20, "10.0.0.3", "POST", "/c", 200, 70⟩,
         ⟨30, "10.0.0.4", "GET", "/d", 404, 9⟩] =
      LogFilter.apply ⟨some "GET", some 200, none, none, some 10, none⟩
        [⟨5, "10.0.0.1", "GET", "/a", 200, 100⟩,
         ⟨15, "10.0.0.2", "GET", "/b", 200, 50⟩,
         ⟨20, "10.0.0.3", "POST", "/c", 200, 70⟩,
         ⟨30, "10.0.0.4", "GET", "/d", 404, 9⟩] ∧
    LogFilter.apply ⟨some "GET", some 200, none, none, some 10, none⟩
        [⟨5, "10.0.0.1", "GET", "/a", 200, 100⟩,
         ⟨15, "10.0.0.2", "GET", "/b", 200, 50⟩,
         ⟨20, "10.0.0.3", "POST", "/c", 200, 70⟩,
         ⟨30, "10.0.0.4", "GET", "/d", 404, 9⟩] =
      [⟨15, "10.0.0.2", "GET", "/b", 200, 50⟩] := by
  constructor
  · exact C7_filter_composition ⟨some "GET", some 200, none, none, some 10, none⟩ _ _
      (List.Perm.swap _ _ _)
  · decide

/-- C8: a line that is non-blank after stripping and does not split into
exactly 6 whitespace-separated fields yields no record and exactly the
parse error "expected 6 fields, got {n}" with the actual field count, and a
blank line yields neither a record nor an error. -/
theorem C8_field_count (line : String) (ln : Nat) :
    (pyStrip line = "" → parse_log_line line ln = .skip) ∧
    (pyStrip line ≠ "" → (pySplit (pyStrip line)).length ≠ 6 →
      parse_log_line line ln =
        .err (ln, pyStrip line, s!"expected 6 fields, got {(pySplit (pyStrip line)).length}")) := by
  constructor
  · intro h
    simp [parse_log_line, h]
  · intro h1 h2
    simp only [parse_log_line, if_neg h1, if_pos h2]

/-- C9: the parser statistics satisfy `total_lines = parsed + errors`, and
that total equals the number of non-blank lines, not the number of physical
lines. -/
theorem C9_statistics_invariant (lines : List String) (n : Nat) :
    (get_statistics (runParse lines n).1 (runParse lines n).2).total_lines =
        (get_statistics (runParse lines n).1 (runParse lines n).2).parsed +
          (get_statistics (runParse lines n).1 (runParse lines n).2).errors ∧
    (get_statistics (runParse lines n).1 (runParse lines n).2).total_lines =
      (lines.filter (fun l => pyStrip l ≠ "")).length := by
  exact ⟨rfl, runParse_length lines n⟩

/-- C10: octets with leading zeros are accepted — construction succeeds for
any candidate whose other fields are valid and whose ip address has exactly
4 dot-separated all-digit parts with values in [0,255]; the octet check is
digit-string membership plus the numeric range only. -/
theorem C10_leading_zero_octets (t : Int) (ip m u : String) (st sz : Int)
    (ht : 0 ≤ t)
    (hip4 : (pySplitDot ip).length = 4)
    (hoct : ∀ p ∈ pySplitDot ip, octetOk p = true)
    (hm : m ∈ valid_methods)
    (hu : pyStartsWith u "/" = true)
    (hst : 100 ≤ st ∧ st ≤ 599)
    (hsz : 0 ≤ sz) :
    validate t ip m u st sz = .ok ⟨t, ip, m, u, st, sz⟩ := by
  unfold validate
  rw [if_neg (by omega), if_neg (by simp [hip4]),
      if_neg (by simp [List.all_eq_true]; exact hoct),
      if_neg (by simp [hm]), if_neg (by simp [hu]),
      if_neg (by simp [hst]), if_neg (by omega)]

/-- C10 witness: the record with ip "010.001.002.003" is constructed. -/
theorem C10_witness :
    validate 0 "010.001.002.003" "GET" "/" 200 0 =
      .ok ⟨0, "010.001.002.003", "GET", "/", 200, 0⟩ :=
  C10_leading_zero_octets 0 "010.001.002.003" "GET" "/" 200 0 (by decide) (by decide)
    (by decide) (by decide) (by decide) (by decide) (by decide)

end TrafficAnalyzer
